import Mathlib

/-!
Verification of the synchronization-primitive library: shallow embeddings of
the fair FIFO reader-writer lock, the timed mutex, the reentrant timed mutex,
the multi-lock acquirer, the blocking task queue and the elastic worker pool,
together with theorems settling the specified properties.

All definitions are translated from the C++ sources:
  * `fairFifo.*`    — `fair_fifo::shared_mutex` in src/mutex/rw_lock.cpp (lines 700-886)
  * `onefile.*`     — the `shared_mutex` variant in src/1.cpp (lines 17-197)
  * `TimedLock.*`   — `TimedLock` in src/mutex/spin_lock.cpp (lines 76-130)
  * `RecursiveLock.*` / `RecursiveTimedLock.*` — src/mutex/recursive_lock.cpp
    (lines 9-73) and src/unnamed/part_003 (lines 21-111)
  * `lockAll.*`     — `my_sync_lib::detail::lock_all` in src/unnamed/part_004 and
    `my_std_like::detail::Lock` in src/mutex/rw_lock.cpp (lines 1114-1137)
  * `TaskQueue.*`   — `TaskQueue` in src/thread_pool/src/_v4.hpp (lines 62-245)
    and src/unnamed/part_005
  * `ThreadPool.*`  — `ThreadPool::ThreadPool` in src/unnamed/part_007
    (lines 145-157) and src/thread_pool/src/_v4.hpp (lines 378-389)

Blocking waits on condition variables are modelled for a quiescent environment
(no interference from other threads during the single call under analysis):
a timed wait whose deadline has passed returns the value of its predicate
immediately, and an untimed wait that would block is an `Option.none` result.
Machine times are modelled as natural numbers (monotonic clock ticks).
-/

namespace fairFifo

/-- `enum class Mode { Read, Write }` of `fair_fifo::shared_mutex`. -/
inductive Mode where
  | Read : Mode
  | Write : Mode
deriving DecidableEq, Repr

/-- A queue node `{mode, ticket, waiter}`; the waiter pointer is modelled as an
optional waiter identifier (the source stores `Waiter*`, null when absent). -/
structure Node where
  mode : Mode
  ticket : Nat
  waiter : Option Nat
deriving DecidableEq, Repr

/-- Boolean test used for the reader-batch loop condition
`q_.front().mode == Mode::Read`. -/
def Node.isRead (n : Node) : Bool :=
  match n.mode with
  | Mode.Read => true
  | Mode.Write => false

/-- The lock state of `fair_fifo::shared_mutex`: the FIFO queue `q_`, the
`has_writer_` flag, the active-reader count `reader_cnt_`, the
admitted-but-not-entered count `pending_readers_`, and `next_ticket_`.
The per-waiter `go` gates live on callers' stacks; an operation returns the
list of waiter identifiers whose gate it set to true and signalled. -/
structure SMState where
  q : List Node
  hasWriter : Bool
  readerCnt : Nat
  pendingReaders : Nat
  nextTicket : Nat
deriving DecidableEq, Repr

/-- The pop/collect loop of `open_read_batch_and_wake_unsafe_`
(rw_lock.cpp lines 829-837): pop consecutive `Read` nodes off the queue head,
collecting their non-null waiters in order and counting the popped nodes.
Returns (waiters to wake, count, remaining queue). -/
def collectReadBatch : List Node → List Nat × Nat × List Node
  | [] => ([], 0, [])
  | n :: rest =>
    match n.mode with
    | Mode.Write => ([], 0, n :: rest)
    | Mode.Read =>
      let (ws, c, q') := collectReadBatch rest
      (match n.waiter with
       | some w => w :: ws
       | none => ws, c + 1, q')

/-- `open_read_batch_and_wake_unsafe_` (rw_lock.cpp lines 825-847): pop the
maximal prefix of consecutive `Read` nodes, set `pending_readers_` to the count,
and wake each collected waiter (`w->go = true; w->cv.notify_one()`). -/
def openReadBatchAndWake (s : SMState) : SMState × List Nat :=
  let (ws, c, q') := collectReadBatch s.q
  ({ s with q := q', pendingReaders := c }, ws)

/-- The scheduler `wake_next_` (rw_lock.cpp lines 850-872): no action while a
writer or readers hold the lock, a batch is entering, or the queue is empty;
otherwise wake the head writer, or open a reader batch when the head is a
reader. -/
def wakeNext (s : SMState) : SMState × List Nat :=
  if s.hasWriter || s.readerCnt != 0 then (s, [])
  else if s.pendingReaders != 0 then (s, [])
  else
    match s.q with
    | [] => (s, [])
    | n :: _ =>
      match n.mode with
      | Mode.Write =>
        (s, match n.waiter with
            | some w => [w]
            | none => [])
      | Mode.Read => openReadBatchAndWake s

/-- `try_lock` (rw_lock.cpp lines 731-743; identical in src/1.cpp lines 52-63):
succeed, setting `has_writer_`, only when there is no writer, no active or
pending readers, and the queue is empty. -/
def tryLock (s : SMState) : Bool × SMState :=
  if s.hasWriter then (false, s)
  else if s.readerCnt != 0 || s.pendingReaders != 0 then (false, s)
  else if !s.q.isEmpty then (false, s)
  else (true, { s with hasWriter := true })

/-- `try_lock_shared` (rw_lock.cpp lines 778-790; identical in src/1.cpp lines
94-105): succeed, incrementing `reader_cnt_`, when there is no writer, no
pending batch, and the queue is empty; active readers are not checked. -/
def tryLockShared (s : SMState) : Bool × SMState :=
  if s.hasWriter then (false, s)
  else if s.pendingReaders != 0 then (false, s)
  else if !s.q.isEmpty then (false, s)
  else (true, { s with readerCnt := s.readerCnt + 1 })

/-- Writer `unlock` (rw_lock.cpp lines 745-749): clear `has_writer_` and invoke
the scheduler. -/
def unlock (s : SMState) : SMState × List Nat :=
  wakeNext { s with hasWriter := false }

end fairFifo

namespace onefile

open fairFifo

/-- The scheduler `wake_next_` of the src/1.cpp variant (lines 165-187): the
same guards as the fair_fifo scheduler, but the `Mode::Read` branch is an empty
block — it never calls `open_read_batch_and_wake_unsafe_`. -/
def wakeNext (s : SMState) : SMState × List Nat :=
  if s.hasWriter || s.readerCnt != 0 then (s, [])
  else if s.pendingReaders != 0 then (s, [])
  else
    match s.q with
    | [] => (s, [])
    | n :: _ =>
      match n.mode with
      | Mode.Write =>
        (s, match n.waiter with
            | some w => [w]
            | none => [])
      | Mode.Read => (s, [])

/-- Writer `unlock` of the src/1.cpp variant (lines 65-69): it assigns
`has_writer_ = true` instead of clearing the flag, then invokes its
scheduler. -/
def unlock (s : SMState) : SMState × List Nat :=
  wakeNext { s with hasWriter := true }

end onefile

/-- The error taxonomy of the specification for misused lock operations
(`InvalidState`): an exclusive unlock of an unheld mutex, or a reentrant
unlock by a non-owning thread. The C++ sources surface these by
`std::terminate` or a thrown `runtime_error`; the embeddings return them as
`Except.error`. -/
inductive LockError where
  | PoisonedOrMisused : LockError
  | NotOwner : LockError
deriving DecidableEq, Repr

namespace TimedLock

/-- `TimedLock::unlock` (src/mutex/spin_lock.cpp lines 89-96): set
`flag_ = false` under the internal mutex, then `notify_one`. The source body
performs no check of the current flag (its comment at line 90 states that it
does not check which thread releases), so the embedding into the fallible
signature is always `Except.ok`; the argument is the `flag_` value at entry
and the payload is the `flag_` value at exit. -/
def unlock (_flag : Bool) : Except LockError Bool :=
  Except.ok false

/-- `TimedLock::try_lock_until` (src/mutex/spin_lock.cpp lines 112-124) in a
quiescent environment: when `flag_` is clear the call sets it and succeeds
immediately; otherwise the call waits on `cond_` with the given absolute
deadline, and with no concurrent `unlock` the predicate `!flag_` stays false,
so the wait returns false once the deadline is reached. The result is
(return value, `flag_` at exit, time at which the call returns). -/
def tryLockUntil (flag : Bool) (now deadline : Nat) : Bool × Bool × Nat :=
  if !flag then (true, true, now)
  else (false, flag, max now deadline)

end TimedLock

/-- Reentrant-lock state (`owner_ : std::thread::id`, `cnt_ : uint64_t`) shared
by `RecursiveLock` (src/mutex/recursive_lock.cpp) and `RecursiveTimedLock`
(src/unnamed/part_003). The default-constructed `std::thread::id` ("no
thread") is modelled as `none`; real thread identities are `some tid`. -/
structure RecState where
  owner : Option Nat
  cnt : Nat
deriving DecidableEq, Repr

namespace RecursiveLock

/-- `RecursiveLock::lock` (recursive_lock.cpp lines 15-21) in a quiescent
environment: wait until `cnt_ == 0 || owner_ == this_id`; if the predicate
cannot hold without another thread releasing, the call blocks (`none`).
On entry with `cnt_ == 0` set `owner_ = this_id`; then `++cnt_`. -/
def lock (tid : Nat) (s : RecState) : Option RecState :=
  if s.cnt = 0 then some { owner := some tid, cnt := 1 }
  else if s.owner = some tid then some { s with cnt := s.cnt + 1 }
  else none

/-- `RecursiveLock::try_lock` (recursive_lock.cpp lines 23-44), with the
internal mutex acquired (the `try_to_lock` of the internal mutex is contention
on the guard, not on the logical lock): unowned → take ownership with count 1;
self-owned → increment; otherwise fail. -/
def tryLock (tid : Nat) (s : RecState) : Bool × RecState :=
  if s.cnt = 0 then (true, { owner := some tid, cnt := 1 })
  else if s.owner = some tid then (true, { s with cnt := s.cnt + 1 })
  else (false, s)

/-- `RecursiveLock::unlock` (recursive_lock.cpp lines 46-66): throw
(`Except.error`) when the caller is not the owner; otherwise `--cnt_`, and
when the count reaches zero clear `owner_`, release the internal mutex, and
`notify_one`. -/
def unlock (tid : Nat) (s : RecState) : Except LockError RecState :=
  if s.owner ≠ some tid then Except.error LockError.NotOwner
  else if s.cnt - 1 = 0 then Except.ok { owner := none, cnt := 0 }
  else Except.ok { s with cnt := s.cnt - 1 }

end RecursiveLock

namespace RecursiveTimedLock

/-- `RecursiveTimedLock::try_lock` (part_003 lines 31-45): the self-owned test
comes first, then the unowned test; otherwise fail. -/
def tryLock (tid : Nat) (s : RecState) : Bool × RecState :=
  if s.owner = some tid then (true, { s with cnt := s.cnt + 1 })
  else if s.cnt = 0 then (true, { owner := some tid, cnt := 1 })
  else (false, s)

/-- `RecursiveTimedLock::unlock` (part_003 lines 47-59): `std::terminate`
(`Except.error`) when `cnt_ == 0` or the caller is not the owner; otherwise
`--cnt_`, clearing `owner_` when it reaches zero. -/
def unlock (tid : Nat) (s : RecState) : Except LockError RecState :=
  if s.cnt = 0 ∨ s.owner ≠ some tid then Except.error LockError.NotOwner
  else if s.cnt - 1 = 0 then Except.ok { owner := none, cnt := 0 }
  else Except.ok { s with cnt := s.cnt - 1 }

/-- `RecursiveTimedLock::try_lock_until` (part_003 lines 71-104) in a quiescent
environment: an unowned or self-owned lock is acquired immediately; otherwise
the call waits on `cond_` for `cnt_ == 0` up to the absolute deadline, and
with no concurrent `unlock` the predicate stays false, so the wait returns
false once the deadline is reached. The result is (return value, state at
exit, time at which the call returns). -/
def tryLockUntil (tid : Nat) (s : RecState) (now deadline : Nat) :
    Bool × RecState × Nat :=
  if s.cnt = 0 then (true, { owner := some tid, cnt := 1 }, now)
  else if s.owner = some tid then (true, { s with cnt := s.cnt + 1 }, now)
  else (false, s, max now deadline)

end RecursiveTimedLock

/-- The invariant of the reentrant state (spec §3): `count = 0 ⇔ owner = none`. -/
def RecState.Inv (s : RecState) : Prop :=
  s.cnt = 0 ↔ s.owner = none

instance (s : RecState) : Decidable s.Inv := by
  unfold RecState.Inv
  infer_instance

namespace lockAll

/-- The observable state of one lockable during a round of the multi-lock
acquirer: free, held by some other thread, or held by the calling thread. -/
inductive MutexSt where
  | Free : MutexSt
  | HeldByOther : MutexSt
  | HeldByCaller : MutexSt
deriving DecidableEq, Repr

/-- `std::unique_lock(m, std::try_to_lock)`: acquires a free mutex, fails on a
mutex held by another thread (and on one the caller already holds — the
algorithm never attempts that). -/
def MutexSt.tryAcquire : MutexSt → Option MutexSt
  | MutexSt.Free => some MutexSt.HeldByCaller
  | MutexSt.HeldByOther => none
  | MutexSt.HeldByCaller => none

/-- The `unique_lock` destructor on a lock the caller acquired in this round:
release it; a lock the caller does not own is untouched. -/
def MutexSt.releaseByCaller : MutexSt → MutexSt
  | MutexSt.HeldByCaller => MutexSt.Free
  | m => m

/-- `TryLockRecursiveImpl<...>::do_try` (src/unnamed/part_004 lines 11-31;
likewise `TryLockImpl<...>::DoTryLock` in rw_lock.cpp lines 1093-1112):
try-lock each lockable in order; on the first failure return false, the
destructors of the already-acquired `unique_lock`s releasing those locks on
the way out; on full success `release()` every guard, keeping the locks. -/
def doTry : List MutexSt → Bool × List MutexSt
  | [] => (true, [])
  | m :: rest =>
    match m.tryAcquire with
    | none => (false, m :: rest)
    | some m' =>
      match doTry rest with
      | (true, rest') => (true, m' :: rest')
      | (false, rest') => (false, m'.releaseByCaller :: rest')

/-- One iteration of the retry loop of `lock_all(m1, ms...)` (part_004 lines
34-52; likewise `Lock` in rw_lock.cpp lines 1114-1137): block-lock `m1`
(the round starts once that blocking `lock` has returned, so `m1` is held by
the caller), then `do_try` the remaining lockables; on success `release()` the
guard of `m1` and return, on failure let that guard's destructor unlock `m1`
and retry. The result is (acquired, state of `m1`, states of the others). -/
def round (others : List MutexSt) : Bool × MutexSt × List MutexSt :=
  match doTry others with
  | (true, others') => (true, MutexSt.HeldByCaller, others')
  | (false, others') => (false, MutexSt.Free, others')

end lockAll

namespace TaskQueue

/-- The state of the blocking task queue (src/thread_pool/src/_v4.hpp lines
226-245; likewise src/unnamed/part_005 lines 164-185): the normal FIFO
`tasks_` (front at the head), the delay min-heap `delay_tasks_` keyed by
absolute execution time, and the `stop_` flag. Tasks are opaque callables,
modelled by identifiers; the min-heap is modelled as a list kept sorted by
execution time, so its head is the heap's top. -/
structure TQState where
  tasks_ : List Nat
  delay_ : List (Nat × Nat)
  stop_ : Bool
deriving DecidableEq, Repr

/-- `delay_tasks_.emplace(exec_tm, task)`: insertion into the min-heap,
modelled as order-preserving insertion into the sorted list. -/
def insertByTime (tm t : Nat) : List (Nat × Nat) → List (Nat × Nat)
  | [] => [(tm, t)]
  | (tm', t') :: rest =>
    if tm' ≤ tm then (tm', t') :: insertByTime tm t rest
    else (tm, t) :: (tm', t') :: rest

/-- `TaskQueue::push` (_v4.hpp lines 77-86; part_005 lines 55-63): discard the
task when stopped, else append it to the FIFO and signal one waiter. -/
def push (t : Nat) (s : TQState) : TQState :=
  if s.stop_ then s else { s with tasks_ := s.tasks_ ++ [t] }

/-- `TaskQueue::push_front` (_v4.hpp lines 89-96) /  `push_priority`
(part_005 lines 66-73): discard when stopped, else prepend to the FIFO. -/
def pushPriority (t : Nat) (s : TQState) : TQState :=
  if s.stop_ then s else { s with tasks_ := t :: s.tasks_ }

/-- `TaskQueue::push_delay` (_v4.hpp lines 99-107; part_005 lines 76-83):
discard when stopped, else insert into the delay heap keyed by `exec_tm`. -/
def pushDelay (tm t : Nat) (s : TQState) : TQState :=
  if s.stop_ then s else { s with delay_ := insertByTime tm t s.delay_ }

/-- `TaskQueue::stop` (_v4.hpp lines 212-218; part_005 lines 38-46): set
`stop_` and broadcast to all waiters. -/
def stop (s : TQState) : TQState :=
  { s with stop_ := true }

/-- Outcome of one decision pass of `TaskQueue::pop`: a task became `Ready`
(`PopResult::OK` with the updated state), the consumer must exit
(`PopResult::STOPPED`), or nothing is ready and the call proceeds to the timed
wait on the condition variable (steps 5-6 of the loop, which may later end in
`PopResult::TIMEOUT`). -/
inductive PopStep where
  | OK (task : Nat) (s : TQState) : PopStep
  | STOPPED : PopStep
  | WAIT : PopStep
deriving DecidableEq, Repr

/-- One iteration of the decision loop of `TaskQueue::pop` (_v4.hpp lines
126-156) at time `now`: (1)-(2) if the heap top is due (`exec_tm_ <= now`),
extract and return it; (3) else if the FIFO is non-empty, return its front;
(4) else if stopped and both structures are empty, return `STOPPED`;
otherwise fall through to the timed wait. The part_005 variant (lines
112-134) tests the stopped-and-empty condition first, which decides
identically: when it fires, both structures are empty, so steps (1)-(3)
could not have fired. -/
def popStep (s : TQState) (now : Nat) : PopStep :=
  match s.delay_ with
  | (tm, t) :: rest =>
    if tm ≤ now then PopStep.OK t { s with delay_ := rest }
    else
      match s.tasks_ with
      | t2 :: r2 => PopStep.OK t2 { s with tasks_ := r2 }
      | [] => PopStep.WAIT
  | [] =>
    match s.tasks_ with
    | t2 :: r2 => PopStep.OK t2 { s with tasks_ := r2 }
    | [] => if s.stop_ then PopStep.STOPPED else PopStep.WAIT

end TaskQueue

namespace ThreadPool

/-- The pool configuration produced by the `ThreadPool` constructor
(src/unnamed/part_007 lines 145-157; src/thread_pool/src/_v4.hpp lines
378-389): the stored `min_threads_` and `max_threads_` fields and the number
of worker threads spawned by the construction loop. -/
structure PoolCfg where
  min_threads_ : Int
  max_threads_ : Int
  workersSpawned : Nat
deriving DecidableEq, Repr

/-- `ThreadPool::ThreadPool(min_threads, max_threads, ...)`: stores
`min_threads_ = min_threads` and `max_threads_ = std::max(min_threads,
max_threads)`, then runs `for (int i = 0; i < min_threads; ++i)` spawning one
worker per iteration — `max(min_threads, 0)` workers, i.e. `Int.toNat`.
The constructor performs no argument validation and cannot fail, so the
embedding is total. -/
def construct (minThreads maxThreads : Int) : PoolCfg :=
  { min_threads_ := minThreads
    max_threads_ := max minThreads maxThreads
    workersSpawned := minThreads.toNat }

end ThreadPool

/-! ## Helper lemmas -/

/-- The scheduler never touches `has_writer_`: every branch of `wake_next_`
either leaves the state alone or (via `open_read_batch_and_wake_unsafe_`)
changes only the queue and `pending_readers_`. -/
theorem wakeNext_preserves_hasWriter (s : fairFifo.SMState) :
    ((fairFifo.wakeNext s).1).hasWriter = s.hasWriter := by
  unfold fairFifo.wakeNext fairFifo.openReadBatchAndWake
  rcases s with ⟨q, hw, rc, pr, nt⟩
  dsimp only
  split
  · rfl
  · split
    · rfl
    · cases q with
      | nil => rfl
      | cons n rest =>
        rcases n with ⟨mode, ticket, waiter⟩
        cases mode <;> rfl

/-- The batch-collection loop computes the maximal `Read` prefix: the woken
waiters are the (non-null) waiters of `takeWhile isRead`, the count is that
prefix's length, and the remaining queue is `dropWhile isRead`. -/
theorem collectReadBatch_eq (q : List fairFifo.Node) :
    fairFifo.collectReadBatch q =
      ((q.takeWhile fairFifo.Node.isRead).filterMap fairFifo.Node.waiter,
       (q.takeWhile fairFifo.Node.isRead).length,
       q.dropWhile fairFifo.Node.isRead) := by
  induction q with
  | nil => rfl
  | cons n rest ih =>
    rcases n with ⟨mode, ticket, waiter⟩
    cases mode with
    | Write =>
      simp [fairFifo.collectReadBatch, List.takeWhile, List.dropWhile,
        fairFifo.Node.isRead]
    | Read =>
      cases waiter <;>
        simp [fairFifo.collectReadBatch, List.takeWhile, List.dropWhile,
          fairFifo.Node.isRead, ih]

/-- Every node in the `takeWhile isRead` prefix is a `Read` node. -/
theorem mem_takeWhile_isRead (q : List fairFifo.Node) (m : fairFifo.Node)
    (hm : m ∈ q.takeWhile fairFifo.Node.isRead) : m.mode = fairFifo.Mode.Read := by
  have h := List.mem_takeWhile_imp hm
  rcases m with ⟨mode, ticket, waiter⟩
  cases mode with
  | Read => rfl
  | Write => simp [fairFifo.Node.isRead] at h

/-! ## Claims -/

/-- C1 (code_bug): for the fair FIFO reader-writer lock, `unlock` clears
`has_writer_` and invokes the scheduler, so in particular releasing a writer
over an otherwise idle lock leaves it free for a subsequent `try_lock` — this
holds for the `fair_fifo::shared_mutex` of src/mutex/rw_lock.cpp; the
`shared_mutex::unlock` of src/1.cpp instead assigns `has_writer_ = true`,
leaving the lock permanently busy, so a subsequent `try_lock` fails there. -/
theorem claim_C1 :
    (∀ s : fairFifo.SMState,
        fairFifo.unlock s = fairFifo.wakeNext { s with hasWriter := false } ∧
        ((fairFifo.unlock s).1).hasWriter = false) ∧
    (fairFifo.tryLock (fairFifo.unlock ⟨[], true, 0, 0, 5⟩).1).1 = true ∧
    ((onefile.unlock ⟨[], true, 0, 0, 5⟩).1).hasWriter = true ∧
    (fairFifo.tryLock (onefile.unlock ⟨[], true, 0, 0, 5⟩).1).1 = false := by
  refine ⟨fun s => ⟨rfl, ?_⟩, by decide, by decide, by decide⟩
  have h := wakeNext_preserves_hasWriter { s with hasWriter := false }
  simpa [fairFifo.unlock] using h

/-- C2 (code_bug): when the lock is free (no writer, no active or pending
readers) and the queue head is a `Read` node, the `fair_fifo` scheduler of
src/mutex/rw_lock.cpp removes the maximal prefix of consecutive `Read` nodes,
sets `pending_readers_` to that prefix's length, and signals exactly the
waiters of that prefix — every signalled waiter belongs to a `Read` node of
the prefix and (waiter handles being distinct) no `Write` node's waiter is
signalled. The src/1.cpp scheduler's reader branch is a no-op: under the same
conditions it changes nothing and wakes nobody. -/
theorem claim_C2 (s : fairFifo.SMState) (n : fairFifo.Node)
    (rest : List fairFifo.Node)
    (hW : s.hasWriter = false) (hR : s.readerCnt = 0) (hP : s.pendingReaders = 0)
    (hq : s.q = n :: rest) (hn : n.mode = fairFifo.Mode.Read)
    (hnd : (s.q.filterMap fairFifo.Node.waiter).Nodup) :
    fairFifo.wakeNext s =
      ({ s with q := s.q.dropWhile fairFifo.Node.isRead,
                pendingReaders := (s.q.takeWhile fairFifo.Node.isRead).length },
       (s.q.takeWhile fairFifo.Node.isRead).filterMap fairFifo.Node.waiter) ∧
    (∀ m ∈ s.q.takeWhile fairFifo.Node.isRead, m.mode = fairFifo.Mode.Read) ∧
    (∀ w ∈ (fairFifo.wakeNext s).2,
        ∃ m ∈ s.q.takeWhile fairFifo.Node.isRead,
          m.waiter = some w ∧ m.mode = fairFifo.Mode.Read) ∧
    (∀ m ∈ s.q, m.mode = fairFifo.Mode.Write →
        ∀ w, m.waiter = some w → w ∉ (fairFifo.wakeNext s).2) ∧
    onefile.wakeNext s = (s, []) := by
  rcases s with ⟨q, hw, rc, pr, nt⟩
  dsimp only at hW hR hP hq hnd ⊢
  subst hW hR hP hq
  rcases n with ⟨mode, ticket, waiter⟩
  cases mode with
  | Write => cases hn
  | Read =>
  have hwake :
      fairFifo.wakeNext ⟨⟨fairFifo.Mode.Read, ticket, waiter⟩ :: rest, false, 0, 0, nt⟩ =
        ({ q := (⟨fairFifo.Mode.Read, ticket, waiter⟩ :: rest).dropWhile fairFifo.Node.isRead,
           hasWriter := false, readerCnt := 0,
           pendingReaders :=
             ((⟨fairFifo.Mode.Read, ticket, waiter⟩ :: rest).takeWhile fairFifo.Node.isRead).length,
           nextTicket := nt },
         ((⟨fairFifo.Mode.Read, ticket, waiter⟩ :: rest).takeWhile
             fairFifo.Node.isRead).filterMap fairFifo.Node.waiter) := by
    simp [fairFifo.wakeNext, fairFifo.openReadBatchAndWake, collectReadBatch_eq]
  refine ⟨hwake, fun m hm => mem_takeWhile_isRead _ m hm, ?_, ?_, rfl⟩
  · intro w hwmem
    rw [hwake] at hwmem
    rcases List.mem_filterMap.mp hwmem with ⟨m, hm, hmw⟩
    exact ⟨m, hm, hmw, mem_takeWhile_isRead _ m hm⟩
  · intro m hm hmode w hmw hwmem
    rw [hwake] at hwmem
    dsimp only at hwmem
    set ql := (⟨fairFifo.Mode.Read, ticket, waiter⟩ : fairFifo.Node) :: rest with hql
    have hsplit : ql = ql.takeWhile fairFifo.Node.isRead ++ ql.dropWhile fairFifo.Node.isRead :=
      (List.takeWhile_append_dropWhile fairFifo.Node.isRead ql).symm
    have hnd' := hnd
    rw [hsplit, List.filterMap_append] at hnd'
    have hdisj := (List.nodup_append.mp hnd').2.2
    have hmdrop : m ∈ ql.dropWhile fairFifo.Node.isRead := by
      have := hm
      rw [hsplit] at this
      rcases List.mem_append.mp this with h1 | h2
      · have := mem_takeWhile_isRead _ m h1
        rw [hmode] at this
        cases this
      · exact h2
    have hw2 : w ∈ (ql.dropWhile fairFifo.Node.isRead).filterMap fairFifo.Node.waiter :=
      List.mem_filterMap.mpr ⟨m, hmdrop, hmw⟩
    exact hdisj hwmem hw2

/-- Witness for C2: on the queue R(w1), R(w2), W(w3) with the lock free, the
scheduler pops the two readers, sets `pending_readers_ = 2`, and wakes exactly
waiters 1 and 2, leaving the writer queued. -/
theorem claim_C2_witness :
    fairFifo.wakeNext
        ⟨[⟨fairFifo.Mode.Read, 0, some 1⟩, ⟨fairFifo.Mode.Read, 1, some 2⟩,
          ⟨fairFifo.Mode.Write, 2, some 3⟩], false, 0, 0, 3⟩ =
      (⟨[⟨fairFifo.Mode.Write, 2, some 3⟩], false, 0, 2, 3⟩, [1, 2]) := by
  have h := (claim_C2
      ⟨[⟨fairFifo.Mode.Read, 0, some 1⟩, ⟨fairFifo.Mode.Read, 1, some 2⟩,
        ⟨fairFifo.Mode.Write, 2, some 3⟩], false, 0, 0, 3⟩
      ⟨fairFifo.Mode.Read, 0, some 1⟩
      [⟨fairFifo.Mode.Read, 1, some 2⟩, ⟨fairFifo.Mode.Write, 2, some 3⟩]
      rfl rfl rfl rfl rfl (by decide)).1
  exact h.trans (by decide)

/-- Counterexample state for C3: one active reader, no writer, no pending
batch, empty queue. -/
def sC3 : fairFifo.SMState :=
  ⟨[], false, 1, 0, 0⟩

/-- Counterexample to C3 as stated: with one active reader (and nothing else),
`try_lock_shared` succeeds although the claimed condition (which requires
`reader_cnt = 0`) is false. -/
theorem claim_C3_counterexample :
    (fairFifo.tryLockShared sC3).1 = true ∧
    ¬(sC3.hasWriter = false ∧ sC3.readerCnt = 0 ∧ sC3.pendingReaders = 0 ∧
        sC3.q = []) := by
  refine ⟨by decide, ?_⟩
  intro h
  exact absurd h.2.1 (by decide)

/-- C3 (amended): `try_lock` succeeds iff there is no writer, no active
readers, no pending readers and the queue is empty; `try_lock_shared` succeeds
iff there is no writer, no pending readers and the queue is empty — active
readers do not block `try_lock_shared`. -/
theorem claim_C3 (s : fairFifo.SMState) :
    ((fairFifo.tryLock s).1 = true ↔
      (s.hasWriter = false ∧ s.readerCnt = 0 ∧ s.pendingReaders = 0 ∧
        s.q = [])) ∧
    ((fairFifo.tryLockShared s).1 = true ↔
      (s.hasWriter = false ∧ s.pendingReaders = 0 ∧ s.q = [])) := by
  rcases s with ⟨q, hw, rc, pr, nt⟩
  cases hw <;> cases q <;>
    simp [fairFifo.tryLock, fairFifo.tryLockShared, List.isEmpty] <;>
    split_ifs <;> simp_all

/-- Witness for C3 (amended): on the free, empty-queue state both try-variants
succeed, matching their characterizations. -/
theorem claim_C3_witness :
    ((fairFifo.tryLock ⟨[], false, 0, 0, 0⟩).1 = true ↔
      ((⟨[], false, 0, 0, 0⟩ : fairFifo.SMState).hasWriter = false ∧
        (⟨[], false, 0, 0, 0⟩ : fairFifo.SMState).readerCnt = 0 ∧
        (⟨[], false, 0, 0, 0⟩ : fairFifo.SMState).pendingReaders = 0 ∧
        (⟨[], false, 0, 0, 0⟩ : fairFifo.SMState).q = [])) :=
  (claim_C3 ⟨[], false, 0, 0, 0⟩).1

/-- Counterexample to C4 as stated: `TimedLock::unlock` on an unheld lock
(`flag_ = false`) returns normally — it is `Except.ok`, not any
`Except.error` — so no `PoisonedOrMisused` failure is reported. -/
theorem claim_C4_counterexample :
    TimedLock.unlock false = Except.ok false ∧
    (TimedLock.unlock false).isOk = true := by
  exact ⟨rfl, rfl⟩

/-- C4 (amended): `TimedLock::unlock` performs no held-check at all — for
every prior flag value it silently succeeds, leaving `flag_ = false` (the
state is not corrupted, but no error is reported either). -/
theorem claim_C4 (flag : Bool) : TimedLock.unlock flag = Except.ok false :=
  rfl

/-- Counterexample to C5 as stated: with the lock free and a deadline already
in the past (3 < 10), `try_lock_until` succeeds — it does not return false
regardless of the lock's state. -/
theorem claim_C5_counterexample :
    3 < 10 ∧ (TimedLock.tryLockUntil false 10 3).1 = true := by
  exact ⟨by decide, rfl⟩

/-- C5 (amended): for a deadline at or before the current time, both timed
locks return immediately (at time `now`, i.e. without blocking): with the lock
unavailable to the caller the call fails, and with the lock immediately
available it succeeds. For `TimedLock` "unavailable" is `flag_` set; for
`RecursiveTimedLock` it is a positive count owned by another thread. -/
theorem claim_C5 (now deadline tid : Nat) (s : RecState)
    (h : deadline ≤ now) (hOwn : s.owner ≠ some tid) (hCnt : s.cnt ≠ 0) :
    TimedLock.tryLockUntil true now deadline = (false, true, now) ∧
    TimedLock.tryLockUntil false now deadline = (true, true, now) ∧
    RecursiveTimedLock.tryLockUntil tid s now deadline = (false, s, now) := by
  refine ⟨?_, rfl, ?_⟩
  · simp [TimedLock.tryLockUntil, Nat.max_eq_left h]
  · simp [RecursiveTimedLock.tryLockUntil, hOwn, hCnt, Nat.max_eq_left h]

/-- Witness for C5 (amended): deadline 3 is already past at time 10; the held
timed lock and a reentrant lock held by thread 0 both refuse thread 1
immediately. -/
theorem claim_C5_witness :
    TimedLock.tryLockUntil true 10 3 = (false, true, 10) ∧
    TimedLock.tryLockUntil false 10 3 = (true, true, 10) ∧
    RecursiveTimedLock.tryLockUntil 1 ⟨some 0, 2⟩ 10 3 = (false, ⟨some 0, 2⟩, 10) :=
  claim_C5 10 3 1 ⟨some 0, 2⟩ (by decide) (by decide) (by decide)

/-- C9: one round of the multi-lock acquirer — after the blocking `lock` of
`L₁` returns, the remaining lockables are try-locked in order; the round
succeeds exactly when all of them were free, in which case the caller holds
every lock (`L₁` included); on any try-lock failure every lock acquired in
the round is released, `L₁` included, and the other lockables are left exactly
as they were — between rounds the caller holds no subset of the locks. -/
theorem claim_C9 (others : List lockAll.MutexSt) :
    lockAll.doTry others =
      (if others.all (fun m => m = lockAll.MutexSt.Free)
       then (true, List.replicate others.length lockAll.MutexSt.HeldByCaller)
       else (false, others)) ∧
    lockAll.round others =
      (if others.all (fun m => m = lockAll.MutexSt.Free)
       then (true, lockAll.MutexSt.HeldByCaller,
             List.replicate others.length lockAll.MutexSt.HeldByCaller)
       else (false, lockAll.MutexSt.Free, others)) := by
  have hdo : ∀ l : List lockAll.MutexSt,
      lockAll.doTry l =
        (if l.all (fun m => m = lockAll.MutexSt.Free)
         then (true, List.replicate l.length lockAll.MutexSt.HeldByCaller)
         else (false, l)) := by
    intro l
    induction l with
    | nil => rfl
    | cons m rest ih =>
      cases m <;>
        simp [lockAll.doTry, lockAll.MutexSt.tryAcquire, ih] <;>
        split_ifs <;>
        simp [lockAll.MutexSt.releaseByCaller, List.replicate]
  refine ⟨hdo others, ?_⟩
  rw [lockAll.round, hdo others]
  split_ifs <;> rfl

/-- C10: the elastic worker pool constructor clamps the stored maximum to
`max(min_threads, max_threads)` without reporting an error, spawns exactly
`min_threads` workers (none when `min_threads ≤ 0`), and accepts every
argument pair — including a maximum smaller than the minimum and non-positive
minima. -/
theorem claim_C10 (minThreads maxThreads : Int) :
    (ThreadPool.construct minThreads maxThreads).max_threads_ =
        max minThreads maxThreads ∧
    (ThreadPool.construct minThreads maxThreads).min_threads_ = minThreads ∧
    (ThreadPool.construct minThreads maxThreads).workersSpawned =
        minThreads.toNat ∧
    (ThreadPool.construct (-3) 7).workersSpawned = 0 ∧
    (ThreadPool.construct 5 2).max_threads_ = 5 ∧
    (ThreadPool.construct 5 2).workersSpawned = 5 := by
  exact ⟨rfl, rfl, rfl, by decide, by decide, by decide⟩

/-- C6: the reentrant locks preserve `count = 0 ⇔ owner = none`; every
successful `lock`/`try_lock` increments the count by exactly 1 (taking
ownership when previously free), a failed `try_lock` changes nothing, and
every successful `unlock` decrements the count by exactly 1 (clearing the
owner at zero). The literal scenario: thread 0 locking three times and
unlocking three times passes through counts 1,2,3,2,1,0 ending at
`(none, 0)`, and after the second unlock (count 1, owner still thread 0)
thread 1's `try_lock` fails on both implementations. -/
theorem claim_C6 (tid : Nat) (s : RecState) (hInv : s.Inv) :
    (∀ s', RecursiveLock.lock tid s = some s' →
        s'.Inv ∧ s'.owner = some tid ∧ s'.cnt = s.cnt + 1) ∧
    ((RecursiveLock.tryLock tid s).1 = true →
        (RecursiveLock.tryLock tid s).2.Inv ∧
        (RecursiveLock.tryLock tid s).2.owner = some tid ∧
        (RecursiveLock.tryLock tid s).2.cnt = s.cnt + 1) ∧
    ((RecursiveLock.tryLock tid s).1 = false →
        (RecursiveLock.tryLock tid s).2 = s) ∧
    (∀ s', RecursiveLock.unlock tid s = Except.ok s' →
        s'.Inv ∧ s.cnt = s'.cnt + 1) ∧
    ((RecursiveTimedLock.tryLock tid s).1 = true →
        (RecursiveTimedLock.tryLock tid s).2.Inv ∧
        (RecursiveTimedLock.tryLock tid s).2.cnt = s.cnt + 1) ∧
    ((RecursiveTimedLock.tryLock tid s).1 = false →
        (RecursiveTimedLock.tryLock tid s).2 = s) ∧
    (∀ s', RecursiveTimedLock.unlock tid s = Except.ok s' →
        s'.Inv ∧ s.cnt = s'.cnt + 1) ∧
    (∀ now deadline, ((RecursiveTimedLock.tryLockUntil tid s now deadline).2.1).Inv) ∧
    (RecursiveLock.lock 0 ⟨none, 0⟩ = some ⟨some 0, 1⟩ ∧
     RecursiveLock.lock 0 ⟨some 0, 1⟩ = some ⟨some 0, 2⟩ ∧
     RecursiveLock.lock 0 ⟨some 0, 2⟩ = some ⟨some 0, 3⟩ ∧
     RecursiveLock.unlock 0 ⟨some 0, 3⟩ = Except.ok ⟨some 0, 2⟩ ∧
     RecursiveLock.unlock 0 ⟨some 0, 2⟩ = Except.ok ⟨some 0, 1⟩ ∧
     (RecursiveLock.tryLock 1 ⟨some 0, 1⟩).1 = false ∧
     (RecursiveTimedLock.tryLock 1 ⟨some 0, 1⟩).1 = false ∧
     RecursiveLock.unlock 0 ⟨some 0, 1⟩ = Except.ok ⟨none, 0⟩) := by
  rcases s with ⟨owner, cnt⟩
  simp only [RecState.Inv] at hInv
  cases owner with
  | none =>
    have hc : cnt = 0 := hInv.mpr rfl
    subst hc
    refine ⟨?_, ?_, ?_, ?_, ?_, ?_, ?_, ?_, ⟨rfl, rfl, rfl, rfl, rfl, rfl, rfl, rfl⟩⟩ <;>
      simp [RecursiveLock.lock, RecursiveLock.tryLock, RecursiveLock.unlock,
        RecursiveTimedLock.tryLock, RecursiveTimedLock.unlock,
        RecursiveTimedLock.tryLockUntil, RecState.Inv]
  | some o =>
    have hc : cnt ≠ 0 := by
      intro h
      exact Option.some_ne_none o (hInv.mp h)
    by_cases hto : o = tid
    · subst hto
      refine ⟨?_, ?_, ?_, ?_, ?_, ?_, ?_, ?_, ⟨rfl, rfl, rfl, rfl, rfl, rfl, rfl, rfl⟩⟩ <;>
        simp [RecursiveLock.lock, RecursiveLock.tryLock, RecursiveLock.unlock,
          RecursiveTimedLock.tryLock, RecursiveTimedLock.unlock,
          RecursiveTimedLock.tryLockUntil, RecState.Inv, hc] <;>
        split_ifs <;> simp_all <;> omega
    · have hne : (some o : Option Nat) ≠ some tid := by
        simp [hto]
      refine ⟨?_, ?_, ?_, ?_, ?_, ?_, ?_, ?_, ⟨rfl, rfl, rfl, rfl, rfl, rfl, rfl, rfl⟩⟩ <;>
        simp [RecursiveLock.lock, RecursiveLock.tryLock, RecursiveLock.unlock,
          RecursiveTimedLock.tryLock, RecursiveTimedLock.unlock,
          RecursiveTimedLock.tryLockUntil, RecState.Inv, hc, hne]

/-- Witness for C6: the full three-lock / three-unlock scenario of thread 0,
with thread 1's competing `try_lock` failing while the count is still 1. -/
theorem claim_C6_witness :
    RecursiveLock.lock 0 ⟨none, 0⟩ = some ⟨some 0, 1⟩ ∧
    RecursiveLock.lock 0 ⟨some 0, 1⟩ = some ⟨some 0, 2⟩ ∧
    RecursiveLock.lock 0 ⟨some 0, 2⟩ = some ⟨some 0, 3⟩ ∧
    RecursiveLock.unlock 0 ⟨some 0, 3⟩ = Except.ok ⟨some 0, 2⟩ ∧
    RecursiveLock.unlock 0 ⟨some 0, 2⟩ = Except.ok ⟨some 0, 1⟩ ∧
    (RecursiveLock.tryLock 1 ⟨some 0, 1⟩).1 = false ∧
    (RecursiveTimedLock.tryLock 1 ⟨some 0, 1⟩).1 = false ∧
    RecursiveLock.unlock 0 ⟨some 0, 1⟩ = Except.ok ⟨none, 0⟩ :=
  (claim_C6 0 ⟨none, 0⟩ (by decide)).2.2.2.2.2.2.2.2

/-- C7: one decision pass of `TaskQueue::pop` at time `now`, on a delay heap
sorted by deadline: it returns `STOPPED` exactly when the queue is stopped
with both structures empty; a due head of the delay heap (its earliest
deadline, ≤ now) is extracted and returned in preference to any FIFO task;
with no due delayed task a non-empty FIFO yields its front; and whenever the
returned task was extracted from the delay heap, its deadline had arrived —
a delayed task is never returned before its deadline. -/
theorem claim_C7 (s : TaskQueue.TQState) (now : Nat)
    (hsorted : s.delay_.Pairwise (fun a b => a.1 ≤ b.1)) :
    (TaskQueue.popStep s now = TaskQueue.PopStep.STOPPED ↔
      (s.stop_ = true ∧ s.tasks_ = [] ∧ s.delay_ = [])) ∧
    (∀ tm t rest, s.delay_ = (tm, t) :: rest → tm ≤ now →
      (TaskQueue.popStep s now = TaskQueue.PopStep.OK t { s with delay_ := rest } ∧
       ∀ p ∈ s.delay_, tm ≤ p.1)) ∧
    (∀ t2 r2, s.tasks_ = t2 :: r2 →
      (∀ tm t rest, s.delay_ = (tm, t) :: rest → ¬ tm ≤ now) →
      TaskQueue.popStep s now = TaskQueue.PopStep.OK t2 { s with tasks_ := r2 }) ∧
    (∀ t s', TaskQueue.popStep s now = TaskQueue.PopStep.OK t s' →
      s'.delay_ ≠ s.delay_ →
      ∃ tm rest, s.delay_ = (tm, t) :: rest ∧ tm ≤ now ∧
        s' = { s with delay_ := rest }) := by
  rcases s with ⟨tasks, delay, stopb⟩
  dsimp only at hsorted ⊢
  cases delay with
  | nil =>
    cases tasks with
    | nil => cases stopb <;> simp [TaskQueue.popStep]
    | cons t2 r2 => simp [TaskQueue.popStep]
  | cons p rest =>
    rcases p with ⟨tm, t⟩
    have hall : ∀ q ∈ rest, tm ≤ q.1 := by
      intro q hq
      exact (List.pairwise_cons.mp hsorted).1 q hq
    by_cases htm : tm ≤ now
    · cases tasks <;> simp [TaskQueue.popStep, htm] <;>
        exact fun a b h => hall (a, b) h
    · cases tasks <;> simp [TaskQueue.popStep, htm] <;> omega

/-- Witness for C7: a stopped queue with both structures empty answers
`STOPPED`, matching the characterization. -/
theorem claim_C7_witness :
    TaskQueue.popStep ⟨[], [], true⟩ 0 = TaskQueue.PopStep.STOPPED ↔
      ((⟨[], [], true⟩ : TaskQueue.TQState).stop_ = true ∧
       (⟨[], [], true⟩ : TaskQueue.TQState).tasks_ = [] ∧
       (⟨[], [], true⟩ : TaskQueue.TQState).delay_ = []) :=
  (claim_C7 ⟨[], [], true⟩ 0 (by simp)).1

/-- C8: once `stop_` is set, `push`, `push_priority`/`push_front` and
`push_delay` all return without changing the queue state; tasks already
enqueued remain drainable — a non-empty FIFO or a due delayed task still
yields `OK` from `pop`, and `pop` answers `STOPPED` only once both structures
are empty. -/
theorem claim_C8 (s : TaskQueue.TQState) (t tm now : Nat)
    (hstop : s.stop_ = true) :
    TaskQueue.push t s = s ∧
    TaskQueue.pushPriority t s = s ∧
    TaskQueue.pushDelay tm t s = s ∧
    (∀ t2 r2, s.tasks_ = t2 :: r2 →
      ∃ t' s', TaskQueue.popStep s now = TaskQueue.PopStep.OK t' s') ∧
    (∀ tm' t' rest, s.delay_ = (tm', t') :: rest → tm' ≤ now →
      TaskQueue.popStep s now = TaskQueue.PopStep.OK t' { s with delay_ := rest }) ∧
    (TaskQueue.popStep s now = TaskQueue.PopStep.STOPPED →
      s.tasks_ = [] ∧ s.delay_ = []) := by
  rcases s with ⟨tasks, delay, stopb⟩
  dsimp only at hstop ⊢
  subst hstop
  refine ⟨?_, ?_, ?_, ?_, ?_, ?_⟩
  · simp [TaskQueue.push]
  · simp [TaskQueue.pushPriority]
  · simp [TaskQueue.pushDelay]
  · intro t2 r2 htasks
    subst htasks
    cases delay with
    | nil => exact ⟨t2, ⟨r2, [], true⟩, by simp [TaskQueue.popStep]⟩
    | cons p rest =>
      rcases p with ⟨tm', t'⟩
      by_cases htm : tm' ≤ now
      · exact ⟨t', ⟨t2 :: r2, rest, true⟩, by simp [TaskQueue.popStep, htm]⟩
      · exact ⟨t2, ⟨r2, (tm', t') :: rest, true⟩, by simp [TaskQueue.popStep, htm]⟩
  · intro tm' t' rest hdelay htm
    subst hdelay
    simp [TaskQueue.popStep, htm]
  · intro hstep
    cases delay with
    | nil =>
      cases tasks with
      | nil => exact ⟨rfl, rfl⟩
      | cons t2 r2 => simp [TaskQueue.popStep] at hstep
    | cons p rest =>
      rcases p with ⟨tm', t'⟩
      by_cases htm : tm' ≤ now <;>
        cases tasks <;> simp [TaskQueue.popStep, htm] at hstep

/-- Witness for C8: pushing onto a stopped queue that still holds one FIFO
task changes nothing. -/
theorem claim_C8_witness :
    TaskQueue.push 5 ⟨[7], [], true⟩ = ⟨[7], [], true⟩ :=
  (claim_C8 ⟨[7], [], true⟩ 5 0 0 rfl).1

